import Mathlib

/-!
Shallow embedding of `src/data/generators/sensor_simulator.py`: an IoT sensor
data simulator that maintains a fleet of sensor records, perturbs their values
with bounded random walks each tick, and publishes one JSON message per sensor
per tick.  Randomness is modelled by explicit oracle inputs (one sample per
draw the Python code makes); numeric values are exact rationals.
-/

namespace IoTSim

/-- The three sensor types of the simulator. -/
inductive SensorType
  | temperature
  | humidity
  | motion
deriving DecidableEq

/-- Static characteristics of a sensor type (one entry of the `SENSOR_TYPES`
dictionary). -/
structure SensorConfig where
  unit : String
  min : ℚ
  max : ℚ
  precision : ℕ
  drift_max : ℚ
deriving DecidableEq

/-- The `SENSOR_TYPES` table of the source. -/
def SENSOR_TYPES : SensorType → SensorConfig
  | .temperature => { unit := "Â°C", min := 15, max := 35, precision := 1, drift_max := 1/2 }
  | .humidity => { unit := "%", min := 30, max := 80, precision := 1, drift_max := 2 }
  | .motion => { unit := "boolean", min := 0, max := 1, precision := 0, drift_max := 0 }

/-- The key of a sensor type in the `SENSOR_TYPES` dictionary, as used in ids
and topics. -/
def typeName : SensorType → String
  | .temperature => "temperature"
  | .humidity => "humidity"
  | .motion => "motion"

/-- One sensor record of `self.sensors`: the dictionary built in
`_initialize_sensors`. -/
structure Sensor where
  id : String
  type : SensorType
  location : String
  current_value : ℚ
  config : SensorConfig
deriving DecidableEq

/-- The random draws `_initialize_sensors` makes per index: a type picked by
`random.choice` over the table keys, a `random.uniform(min, max)` sample, and
the `random.choice([0, 1])` sample used for motion sensors. -/
structure InitRand where
  typeChoice : ℕ → SensorType
  uniformVal : ℕ → ℚ
  motionChoice : ℕ → Fin 2

/-- The location label `f"room_{(i % 5) + 1}"`. -/
def room_label (i : ℕ) : String := "room_" ++ Nat.repr (i % 5 + 1)

/-- The sensor record built for index `i` in `_initialize_sensors`. -/
def mkSensor (r : InitRand) (i : ℕ) : Sensor :=
  let t := r.typeChoice i
  let cfg := SENSOR_TYPES t
  let iv : ℚ := if t = .motion then ((r.motionChoice i : ℕ) : ℚ) else r.uniformVal i
  { id := typeName t ++ "_" ++ Nat.repr (i + 1)
    type := t
    location := room_label i
    current_value := iv
    config := cfg }

/-- `SensorSimulator._initialize_sensors`: one record per index in
`range(num_sensors)`. -/
def initialize_sensors (n : ℕ) (r : InitRand) : List Sensor :=
  (List.range n).map (mkSensor r)

/-- Round to the nearest integer, ties to the even neighbour, as Python's
`round` resolves exact halves. -/
def rnd_half_even (x : ℚ) : ℤ :=
  if x - ⌊x⌋ < 1/2 then ⌊x⌋
  else if 1/2 < x - ⌊x⌋ then ⌊x⌋ + 1
  else if ⌊x⌋ % 2 = 0 then ⌊x⌋ else ⌊x⌋ + 1

/-- Python's `round(x, p)` on exact decimal arithmetic. -/
def pyRound (x : ℚ) (p : ℕ) : ℚ := (rnd_half_even (x * 10 ^ p) : ℚ) / 10 ^ p

/-- The body of the loop in `SensorSimulator.update_sensor_values` for one
sensor, with `r` the one random sample drawn for it: `random.random()` for a
motion sensor, `random.uniform(-drift_max, drift_max)` otherwise. -/
def update_sensor (s : Sensor) (r : ℚ) : Sensor :=
  if s.type = .motion then
    if r < 1/10 then
      { s with current_value := if s.current_value = 0 then 1 else 0 }
    else s
  else
    let drift := r
    let new_value := s.current_value + drift
    let clamped := max s.config.min (min s.config.max new_value)
    { s with current_value := pyRound clamped s.config.precision }

/-- `SensorSimulator.update_sensor_values`: update every sensor in order, one
random sample per sensor. -/
def update_sensor_values : List Sensor → (ℕ → ℚ) → List Sensor
  | [], _ => []
  | s :: rest, rand =>
    update_sensor s (rand 0) :: update_sensor_values rest (fun j => rand (j + 1))

/-- A JSON value of the payload dictionary. -/
inductive JVal
  | str (s : String)
  | num (q : ℚ)
deriving DecidableEq

/-- One MQTT publication: the topic and the JSON object (an association list,
one pair per key of the payload dictionary). -/
structure Message where
  topic : String
  payload : List (String × JVal)
deriving DecidableEq

/-- The message `publish_sensor_data` emits for one sensor at a given
timestamp. -/
def mkMessage (timestamp : String) (s : Sensor) : Message :=
  { topic := "sensors/" ++ typeName s.type ++ "/" ++ s.id
    payload := [("sensor_id", JVal.str s.id), ("type", JVal.str (typeName s.type)),
      ("location", JVal.str s.location), ("value", JVal.num s.current_value),
      ("unit", JVal.str s.config.unit), ("timestamp", JVal.str timestamp)] }

/-- `SensorSimulator.publish_sensor_data`: the timestamp is computed once,
then one message per sensor is published. -/
def publish_sensor_data (sensors : List Sensor) (timestamp : String) : List Message :=
  sensors.map (mkMessage timestamp)

/-- The tick loop of `SensorSimulator.run`, for `ticks` iterations before the
interruption: each tick updates all sensors, then publishes them.  Returns the
final sensor state and all emitted messages in order.  `samples k i` is the
random sample for sensor `i` at tick `k`; `stamps k` is tick `k`'s
`datetime.now().isoformat()`. -/
def runLoop : ℕ → List Sensor → (ℕ → ℕ → ℚ) → (ℕ → String) → List Sensor × List Message
  | 0, sensors, _, _ => (sensors, [])
  | k + 1, sensors, samples, stamps =>
    let s1 := update_sensor_values sensors (samples 0)
    let msgs := publish_sensor_data s1 (stamps 0)
    let rest := runLoop k s1 (fun j => samples (j + 1)) (fun j => stamps (j + 1))
    (rest.1, msgs ++ rest.2)

/-- `SensorSimulator.run`: if `connect` fails it returns at once, else it
enters the tick loop. -/
def run (connectOk : Bool) (ticks : ℕ) (sensors : List Sensor)
    (samples : ℕ → ℕ → ℚ) (stamps : ℕ → String) : List Sensor × List Message :=
  if connectOk then runLoop ticks sensors samples stamps else (sensors, [])

/-- `k` successive calls to `update_sensor_values` (the state evolution of the
run loop, without publication). -/
def iterUpdate : ℕ → (ℕ → ℕ → ℚ) → List Sensor → List Sensor
  | 0, _, sensors => sensors
  | k + 1, samples, sensors =>
    iterUpdate k (fun j => samples (j + 1)) (update_sensor_values sensors (samples 0))

/-- A sensor record whose `config` is the `SENSOR_TYPES` entry of its type, as
`_initialize_sensors` builds them. -/
def Sensor.wf (s : Sensor) : Prop := s.config = SENSOR_TYPES s.type

/-- The spec's invariant for one sensor: the value lies in the type's
`[min, max]`, and a motion sensor's value is exactly 0 or 1. -/
def Sensor.valid (s : Sensor) : Prop :=
  (SENSOR_TYPES s.type).min ≤ s.current_value ∧
    s.current_value ≤ (SENSOR_TYPES s.type).max ∧
    (s.type = .motion → s.current_value = 0 ∨ s.current_value = 1)

/-- The guarantee `random.uniform(min, max)` gives on the initial-value
samples: each lies in the chosen type's range. -/
def InitRand.Ok (r : InitRand) : Prop :=
  ∀ i, (SENSOR_TYPES (r.typeChoice i)).min ≤ r.uniformVal i ∧
    r.uniformVal i ≤ (SENSOR_TYPES (r.typeChoice i)).max

/-- Clamping as the spec words it: values below `lo` go to `lo`, values above
`hi` go to `hi`, others are unchanged. -/
def spec_clamp (lo hi x : ℚ) : ℚ := if x < lo then lo else if hi < x then hi else x

instance (s : Sensor) : Decidable s.wf := by unfold Sensor.wf; infer_instance

instance (s : Sensor) : Decidable s.valid := by unfold Sensor.valid; infer_instance

theorem rnd_half_even_ge_floor (x : ℚ) : ⌊x⌋ ≤ rnd_half_even x := by
  unfold rnd_half_even
  split_ifs <;> omega

theorem rnd_half_even_le_of_le (x : ℚ) (m : ℤ) (h : x ≤ (m : ℚ)) :
    rnd_half_even x ≤ m := by
  have hfm : ⌊x⌋ ≤ m := by
    have h2 := Int.floor_le_floor h
    simpa using h2
  unfold rnd_half_even
  split_ifs with h1 h2 h3
  · exact hfm
  · have hlt : (⌊x⌋ : ℚ) < x := by linarith
    have hm : ⌊x⌋ < m := by exact_mod_cast hlt.trans_le h
    omega
  · exact hfm
  · push_neg at h1
    have hlt : (⌊x⌋ : ℚ) < x := by linarith
    have hm : ⌊x⌋ < m := by exact_mod_cast hlt.trans_le h
    omega

theorem rnd_half_even_ge_of_ge (x : ℚ) (m : ℤ) (h : (m : ℚ) ≤ x) :
    m ≤ rnd_half_even x :=
  le_trans (Int.le_floor.mpr h) (rnd_half_even_ge_floor x)

theorem pyRound_mem (lo hi x : ℚ) (p : ℕ) (a b : ℤ)
    (ha : (a : ℚ) = lo * 10 ^ p) (hb : (b : ℚ) = hi * 10 ^ p)
    (h1 : lo ≤ x) (h2 : x ≤ hi) :
    lo ≤ pyRound x p ∧ pyRound x p ≤ hi := by
  have hpow : (0 : ℚ) < 10 ^ p := by positivity
  constructor
  · have hx : (a : ℚ) ≤ x * 10 ^ p := by
      rw [ha]
      exact mul_le_mul_of_nonneg_right h1 hpow.le
    have hr := rnd_half_even_ge_of_ge (x * 10 ^ p) a hx
    unfold pyRound
    rw [le_div_iff₀ hpow, ← ha]
    exact_mod_cast hr
  · have hx : x * 10 ^ p ≤ (b : ℚ) := by
      rw [hb]
      exact mul_le_mul_of_nonneg_right h2 hpow.le
    have hr := rnd_half_even_le_of_le (x * 10 ^ p) b hx
    unfold pyRound
    rw [div_le_iff₀ hpow, ← hb]
    exact_mod_cast hr

theorem clamp_mem (lo hi x : ℚ) (h : lo ≤ hi) :
    lo ≤ max lo (min hi x) ∧ max lo (min hi x) ≤ hi :=
  ⟨le_max_left _ _, max_le h (min_le_left _ _)⟩

theorem update_sensor_frame (s : Sensor) (r : ℚ) :
    (update_sensor s r).id = s.id ∧ (update_sensor s r).type = s.type ∧
      (update_sensor s r).location = s.location ∧
      (update_sensor s r).config = s.config := by
  unfold update_sensor
  split_ifs <;> simp

theorem update_sensor_value_motion (s : Sensor) (r : ℚ) (hm : s.type = .motion) :
    update_sensor s r =
      if r < 1/10 then { s with current_value := if s.current_value = 0 then 1 else 0 }
      else s := by
  unfold update_sensor
  rw [if_pos hm]

theorem update_sensor_value_continuous (s : Sensor) (r : ℚ) (hm : ¬s.type = .motion) :
    (update_sensor s r).current_value =
      pyRound (max s.config.min (min s.config.max (s.current_value + r)))
        s.config.precision := by
  unfold update_sensor
  rw [if_neg hm]

theorem update_sensor_wf (s : Sensor) (r : ℚ) (hwf : s.wf) : (update_sensor s r).wf := by
  obtain ⟨_, ht, _, hc⟩ := update_sensor_frame s r
  unfold Sensor.wf at hwf ⊢
  rw [ht, hc, hwf]

theorem update_sensor_valid (s : Sensor) (r : ℚ) (hwf : s.wf) (hv : s.valid) :
    (update_sensor s r).valid := by
  obtain ⟨_, ht, _, _⟩ := update_sensor_frame s r
  by_cases hm : s.type = .motion
  · rw [update_sensor_value_motion s r hm]
    by_cases hr : r < 1/10
    · rw [if_pos hr]
      obtain ⟨hlo, hhi, hmot⟩ := hv
      rcases hmot hm with h0 | h1
      · norm_num [Sensor.valid, hm, h0, SENSOR_TYPES]
      · norm_num [Sensor.valid, hm, h1, SENSOR_TYPES]
    · rw [if_neg hr]
      exact hv
  · have hval := update_sensor_value_continuous s r hm
    unfold Sensor.wf at hwf
    unfold Sensor.valid
    rw [ht, hval, hwf]
    rcases hty : s.type with _ | _ | _
    · have hc := clamp_mem 15 35 (s.current_value + r) (by norm_num)
      simp only [SENSOR_TYPES]
      have hp := pyRound_mem 15 35 _ 1 150 350 (by norm_num) (by norm_num) hc.1 hc.2
      exact ⟨hp.1, hp.2, by simp⟩
    · have hc := clamp_mem 30 80 (s.current_value + r) (by norm_num)
      simp only [SENSOR_TYPES]
      have hp := pyRound_mem 30 80 _ 1 300 800 (by norm_num) (by norm_num) hc.1 hc.2
      exact ⟨hp.1, hp.2, by simp⟩
    · exact absurd hty hm

theorem update_sensor_values_mem : ∀ (l : List Sensor) (rand : ℕ → ℚ),
    (∀ s ∈ l, s.wf ∧ s.valid) → ∀ s ∈ update_sensor_values l rand, s.wf ∧ s.valid := by
  intro l
  induction l with
  | nil => intro rand h s hs; simp [update_sensor_values] at hs
  | cons a t ih =>
    intro rand h s hs
    simp only [update_sensor_values] at hs
    rcases List.mem_cons.mp hs with rfl | hmem
    · obtain ⟨hw, hv⟩ := h a (List.mem_cons_self a t)
      exact ⟨update_sensor_wf a (rand 0) hw, update_sensor_valid a (rand 0) hw hv⟩
    · exact ih (fun j => rand (j + 1)) (fun x hx => h x (List.mem_cons_of_mem a hx)) s hmem

theorem iterUpdate_mem : ∀ (k : ℕ) (samples : ℕ → ℕ → ℚ) (l : List Sensor),
    (∀ s ∈ l, s.wf ∧ s.valid) → ∀ s ∈ iterUpdate k samples l, s.wf ∧ s.valid := by
  intro k
  induction k with
  | zero => intro samples l h; simpa [iterUpdate] using h
  | succ k ih =>
    intro samples l h
    simp only [iterUpdate]
    exact ih _ _ (update_sensor_values_mem l (samples 0) h)

theorem mkSensor_wf (r : InitRand) (i : ℕ) : (mkSensor r i).wf := rfl

theorem mkSensor_valid (r : InitRand) (hr : r.Ok) (i : ℕ) : (mkSensor r i).valid := by
  obtain ⟨h1, h2⟩ := hr i
  unfold mkSensor Sensor.valid
  by_cases hm : r.typeChoice i = .motion
  · have hv : (r.motionChoice i : ℕ) = 0 ∨ (r.motionChoice i : ℕ) = 1 := by
      have := (r.motionChoice i).isLt
      omega
    rcases hv with h0 | h01
    · norm_num [hm, h0, SENSOR_TYPES]
    · norm_num [hm, h01, SENSOR_TYPES]
  · simp only [if_neg hm]
    exact ⟨h1, h2, fun hc => absurd hc hm⟩

theorem initialize_sensors_mem (n : ℕ) (r : InitRand) (hr : r.Ok) :
    ∀ s ∈ initialize_sensors n r, s.wf ∧ s.valid := by
  intro s hs
  simp only [initialize_sensors, List.mem_map] at hs
  obtain ⟨i, _, rfl⟩ := hs
  exact ⟨mkSensor_wf r i, mkSensor_valid r hr i⟩

/-- C1: for every sensor in the fleet, after initialization and after every
call to `update_sensor_values` (any number `k` of them), the sensor's current
value lies within `[min, max]` for its type, and a motion sensor's value is
exactly 0 or 1. -/
theorem C1_sensor_values_always_valid (n k : ℕ) (r : InitRand) (samples : ℕ → ℕ → ℚ)
    (hr : r.Ok) :
    List.Forall Sensor.valid (iterUpdate k samples (initialize_sensors n r)) := by
  rw [List.forall_iff_forall_mem]
  intro s hs
  exact (iterUpdate_mem k samples _ (initialize_sensors_mem n r hr) s hs).2

/-- A concrete random source for witnesses: every index picks a temperature
sensor with initial value 20. -/
def r0 : InitRand :=
  { typeChoice := fun _ => .temperature, uniformVal := fun _ => 20,
    motionChoice := fun _ => 0 }

theorem r0_Ok : r0.Ok := by
  intro i
  norm_num [r0, SENSOR_TYPES]

/-- Witness for C1: a two-sensor fleet after one update, all samples 3/10. -/
theorem C1_witness :
    List.Forall Sensor.valid (iterUpdate 1 (fun _ _ => 3/10) (initialize_sensors 2 r0)) :=
  C1_sensor_values_always_valid 2 1 r0 (fun _ _ => 3/10) r0_Ok

theorem max_min_eq_spec_clamp (lo hi x : ℚ) (h : lo ≤ hi) :
    max lo (min hi x) = spec_clamp lo hi x := by
  unfold spec_clamp
  split_ifs with h1 h2
  · rw [min_eq_right (le_of_lt (h1.trans_le h)), max_eq_left (le_of_lt h1)]
  · rw [min_eq_left (le_of_lt h2), max_eq_right h]
  · push_neg at h1 h2
    rw [min_eq_right h2, max_eq_right h1]

theorem config_min_le_max (s : Sensor) (hwf : s.wf) : s.config.min ≤ s.config.max := by
  unfold Sensor.wf at hwf
  rw [hwf]
  rcases s.type with _ | _ | _ <;> norm_num [SENSOR_TYPES]

/-- C2: for a continuous sensor with current value `v`, one update step sets
the new value to `round(clamp(v + delta, min, max), precision)`, with `delta`
the uniform sample from `[-drift_max, drift_max]` drawn for that sensor. -/
theorem C2_continuous_update (s : Sensor) (d : ℚ) (hm : s.type ≠ .motion) (hwf : s.wf)
    (hd : -s.config.drift_max ≤ d ∧ d ≤ s.config.drift_max) :
    (update_sensor s d).current_value =
      pyRound (spec_clamp s.config.min s.config.max (s.current_value + d))
        s.config.precision := by
  rw [update_sensor_value_continuous s d hm,
    max_min_eq_spec_clamp _ _ _ (config_min_le_max s hwf)]

/-- Witness for C2: a temperature sensor at 20 with drift sample 3/10. -/
theorem C2_witness :
    (update_sensor (mkSensor r0 0) (3/10)).current_value =
      pyRound (spec_clamp (mkSensor r0 0).config.min (mkSensor r0 0).config.max
        ((mkSensor r0 0).current_value + 3/10)) (mkSensor r0 0).config.precision :=
  C2_continuous_update (mkSensor r0 0) (3/10) (by simp [mkSensor, r0]) (mkSensor_wf r0 0)
    (by norm_num [mkSensor, r0, SENSOR_TYPES])

/-- C3: one update step of a motion sensor flips its state exactly when the
sample drawn for it is below 0.1, and otherwise leaves the sensor unchanged. -/
theorem C3_motion_update (s : Sensor) (r : ℚ) (hm : s.type = .motion)
    (hv : s.current_value = 0 ∨ s.current_value = 1) :
    (r < 1/10 → (update_sensor s r).current_value = 1 - s.current_value) ∧
      (¬r < 1/10 → update_sensor s r = s) := by
  constructor
  · intro hr
    rw [update_sensor_value_motion s r hm, if_pos hr]
    rcases hv with h0 | h1
    · norm_num [h0]
    · norm_num [h1]
  · intro hr
    rw [update_sensor_value_motion s r hm, if_neg hr]

/-- A concrete motion sensor for witnesses. -/
def sMot : Sensor :=
  { id := "motion_1", type := .motion, location := "room_1", current_value := 0,
    config := SENSOR_TYPES .motion }

/-- Witness for C3: a motion sensor at 0 with sample 1/20. -/
theorem C3_witness :
    ((1/20 : ℚ) < 1/10 → (update_sensor sMot (1/20)).current_value = 1 - sMot.current_value) ∧
      (¬(1/20 : ℚ) < 1/10 → update_sensor sMot (1/20) = sMot) :=
  C3_motion_update sMot (1/20) rfl (Or.inl rfl)

theorem update_sensor_precision (s : Sensor) (r : ℚ) (hwf : s.wf)
    (hm : s.type ≠ .motion) :
    ∃ z : ℤ, (update_sensor s r).current_value =
      (z : ℚ) / 10 ^ (SENSOR_TYPES (update_sensor s r).type).precision := by
  obtain ⟨_, ht, _, _⟩ := update_sensor_frame s r
  unfold Sensor.wf at hwf
  refine ⟨rnd_half_even (max s.config.min (min s.config.max (s.current_value + r)) *
    10 ^ s.config.precision), ?_⟩
  rw [update_sensor_value_continuous s r hm, ht, ← hwf]
  rfl

theorem update_sensor_values_precision_mem : ∀ (l : List Sensor) (rand : ℕ → ℚ),
    (∀ s ∈ l, s.wf) → ∀ s' ∈ update_sensor_values l rand, s'.type ≠ .motion →
      ∃ z : ℤ, s'.current_value = (z : ℚ) / 10 ^ (SENSOR_TYPES s'.type).precision := by
  intro l
  induction l with
  | nil => intro rand h s' hs'; simp [update_sensor_values] at hs'
  | cons a t ih =>
    intro rand h s' hs'
    simp only [update_sensor_values] at hs'
    rcases List.mem_cons.mp hs' with rfl | hmem
    · intro hm'
      obtain ⟨_, ht, _, _⟩ := update_sensor_frame a (rand 0)
      exact update_sensor_precision a (rand 0) (h a (List.mem_cons_self a t))
        (fun hc => hm' (by rw [ht, hc]))
    · exact ih (fun j => rand (j + 1)) (fun x hx => h x (List.mem_cons_of_mem a hx)) s' hmem

/-- C6: after a call to `update_sensor_values`, every continuous sensor's
value is an exact multiple of `10 ^ (-precision)` for its type's precision. -/
theorem C6_update_rounds_to_precision (sensors : List Sensor) (rand : ℕ → ℚ)
    (h : List.Forall Sensor.wf sensors) :
    List.Forall (fun s => s.type ≠ .motion →
        ∃ z : ℤ, s.current_value = (z : ℚ) / 10 ^ (SENSOR_TYPES s.type).precision)
      (update_sensor_values sensors rand) := by
  rw [List.forall_iff_forall_mem]
  rw [List.forall_iff_forall_mem] at h
  exact update_sensor_values_precision_mem sensors rand h

/-- Witness for C6: one temperature sensor, one update with sample 3/10. -/
theorem C6_witness :
    List.Forall (fun s => s.type ≠ .motion →
        ∃ z : ℤ, s.current_value = (z : ℚ) / 10 ^ (SENSOR_TYPES s.type).precision)
      (update_sensor_values [mkSensor r0 0] (fun _ => 3/10)) :=
  C6_update_rounds_to_precision [mkSensor r0 0] (fun _ => 3/10)
    (by rw [List.forall_iff_forall_mem]; intro s hs; rw [List.mem_singleton.mp hs];
        exact mkSensor_wf r0 0)

/-- C7: within a single call to `publish_sensor_data`, every emitted message
carries the same timestamp string, computed once per tick. -/
theorem C7_shared_timestamp (sensors : List Sensor) (ts : String) (m : Message)
    (hm : m ∈ publish_sensor_data sensors ts) :
    m.payload.lookup "timestamp" = some (JVal.str ts) := by
  simp only [publish_sensor_data, List.mem_map] at hm
  obtain ⟨s, _, rfl⟩ := hm
  rfl

/-- Witness for C7: one motion sensor published at timestamp `t0`. -/
theorem C7_witness :
    (mkMessage "t0" sMot).payload.lookup "timestamp" = some (JVal.str "t0") :=
  C7_shared_timestamp [sMot] "t0" (mkMessage "t0" sMot) (List.mem_singleton.mpr rfl)

/-- C8: if connecting to the broker fails, `run` returns at once: the tick
loop is never entered, no message is published, and the sensor state is left
unchanged from its initialized values. -/
theorem C8_connect_failure_no_tick (ticks : ℕ) (sensors : List Sensor)
    (samples : ℕ → ℕ → ℚ) (stamps : ℕ → String) :
    run false ticks sensors samples stamps = (sensors, []) := rfl

theorem update_sensor_values_length : ∀ (l : List Sensor) (rand : ℕ → ℚ),
    (update_sensor_values l rand).length = l.length := by
  intro l
  induction l with
  | nil => intro rand; rfl
  | cons a t ih =>
    intro rand
    simp only [update_sensor_values, List.length_cons, ih]

theorem update_sensor_values_forall₂ : ∀ (l : List Sensor) (rand : ℕ → ℚ),
    List.Forall₂ (fun s s' => s'.id = s.id ∧ s'.type = s.type ∧
      s'.location = s.location ∧ s'.config = s.config) l (update_sensor_values l rand) := by
  intro l
  induction l with
  | nil => intro rand; exact List.Forall₂.nil
  | cons a t ih =>
    intro rand
    exact List.Forall₂.cons (update_sensor_frame a (rand 0)) (ih (fun j => rand (j + 1)))

theorem iterUpdate_length : ∀ (k : ℕ) (samples : ℕ → ℕ → ℚ) (l : List Sensor),
    (iterUpdate k samples l).length = l.length := by
  intro k
  induction k with
  | zero => intro samples l; rfl
  | succ k ih =>
    intro samples l
    simp only [iterUpdate]
    rw [ih, update_sensor_values_length]

theorem runLoop_state : ∀ (k : ℕ) (l : List Sensor) (samples : ℕ → ℕ → ℚ)
    (stamps : ℕ → String), (runLoop k l samples stamps).1 = iterUpdate k samples l := by
  intro k
  induction k with
  | zero => intro l samples stamps; rfl
  | succ k ih =>
    intro l samples stamps
    simp only [runLoop, iterUpdate]
    exact ih _ _ _

/-- C9: sensor records are mutated only by the update step.  Updating keeps
the fleet size and every sensor's id, type, location and configuration;
publishing does not touch the state, so the run loop's state is exactly the
iterated update and the fleet size stays fixed for the whole run. -/
theorem C9_only_update_mutates (sensors : List Sensor) (rand : ℕ → ℚ) (k : ℕ)
    (samples : ℕ → ℕ → ℚ) (stamps : ℕ → String) :
    (update_sensor_values sensors rand).length = sensors.length ∧
      List.Forall₂ (fun s s' => s'.id = s.id ∧ s'.type = s.type ∧
        s'.location = s.location ∧ s'.config = s.config)
        sensors (update_sensor_values sensors rand) ∧
      (runLoop k sensors samples stamps).1 = iterUpdate k samples sensors ∧
      (runLoop k sensors samples stamps).1.length = sensors.length :=
  ⟨update_sensor_values_length sensors rand,
    update_sensor_values_forall₂ sensors rand,
    runLoop_state k sensors samples stamps,
    by rw [runLoop_state k sensors samples stamps, iterUpdate_length]⟩

theorem publish_sensor_data_forall₂ : ∀ (l : List Sensor) (ts : String),
    (∀ s ∈ l, s.wf ∧ s.valid) →
    List.Forall₂ (fun s m =>
        m.topic = "sensors/" ++ typeName s.type ++ "/" ++ s.id ∧
        m.payload.map Prod.fst =
          ["sensor_id", "type", "location", "value", "unit", "timestamp"] ∧
        m.payload.lookup "value" = some (JVal.num s.current_value) ∧
        (SENSOR_TYPES s.type).min ≤ s.current_value ∧
        s.current_value ≤ (SENSOR_TYPES s.type).max)
      l (publish_sensor_data l ts) := by
  intro l ts
  induction l with
  | nil => intro h; exact List.Forall₂.nil
  | cons a t ih =>
    intro h
    refine List.Forall₂.cons ?_ (ih (fun x hx => h x (List.mem_cons_of_mem a hx)))
    obtain ⟨hw, hlo, hhi, _⟩ := h a (List.mem_cons_self a t)
    exact ⟨rfl, rfl, rfl, hlo, hhi⟩

/-- C4: one call to `publish_sensor_data` on a fleet of `N` sensors emits
exactly `N` messages, one per sensor, each to topic
`sensors/<type>/<sensor_id>`, whose JSON payload has exactly the six fields
`sensor_id`, `type`, `location`, `value`, `unit`, `timestamp`, and whose
value lies in the type's declared `[min, max]`. -/
theorem C4_publish_messages (sensors : List Sensor) (ts : String)
    (h : ∀ s ∈ sensors, s.wf ∧ s.valid) :
    (publish_sensor_data sensors ts).length = sensors.length ∧
      List.Forall₂ (fun s m =>
          m.topic = "sensors/" ++ typeName s.type ++ "/" ++ s.id ∧
          m.payload.map Prod.fst =
            ["sensor_id", "type", "location", "value", "unit", "timestamp"] ∧
          m.payload.lookup "value" = some (JVal.num s.current_value) ∧
          (SENSOR_TYPES s.type).min ≤ s.current_value ∧
          s.current_value ≤ (SENSOR_TYPES s.type).max)
        sensors (publish_sensor_data sensors ts) :=
  ⟨List.length_map sensors (mkMessage ts), publish_sensor_data_forall₂ sensors ts h⟩

/-- Witness for C4: a one-sensor fleet published at timestamp `t0`. -/
theorem C4_witness :
    (publish_sensor_data [mkSensor r0 0] "t0").length = [mkSensor r0 0].length ∧
      List.Forall₂ (fun s m =>
          m.topic = "sensors/" ++ typeName s.type ++ "/" ++ s.id ∧
          m.payload.map Prod.fst =
            ["sensor_id", "type", "location", "value", "unit", "timestamp"] ∧
          m.payload.lookup "value" = some (JVal.num s.current_value) ∧
          (SENSOR_TYPES s.type).min ≤ s.current_value ∧
          s.current_value ≤ (SENSOR_TYPES s.type).max)
        [mkSensor r0 0] (publish_sensor_data [mkSensor r0 0] "t0") :=
  C4_publish_messages [mkSensor r0 0] "t0"
    (by intro s hs
        rw [List.mem_singleton.mp hs]
        exact ⟨mkSensor_wf r0 0, mkSensor_valid r0 r0_Ok 0⟩)

/-- C5: initialization always succeeds with an ordered fleet of exactly `N`
records; the sensor at index `i` has the randomly chosen type for `i`, the
location label cycling through `room_1 … room_5` with period 5, and an
initial value in range (a 0/1 state for motion). -/
theorem C5_fleet_init (n : ℕ) (r : InitRand) (hr : r.Ok) :
    (initialize_sensors n r).length = n ∧
      (initialize_sensors n r).map Sensor.location = (List.range n).map room_label ∧
      (initialize_sensors n r).map Sensor.type = (List.range n).map r.typeChoice ∧
      List.Forall (fun i => room_label (i + 5) = room_label i) (List.range n) ∧
      List.Forall (fun i =>
        room_label i ∈ ["room_1", "room_2", "room_3", "room_4", "room_5"]) (List.range n) ∧
      List.Forall (fun s => s.wf ∧ s.valid) (initialize_sensors n r) := by
  refine ⟨?_, ?_, ?_, ?_, ?_, ?_⟩
  · simp [initialize_sensors]
  · simp only [initialize_sensors, List.map_map]
    rfl
  · simp only [initialize_sensors, List.map_map]
    rfl
  · rw [List.forall_iff_forall_mem]
    intro i _
    simp [room_label, Nat.add_mod_right]
  · rw [List.forall_iff_forall_mem]
    intro i _
    have h5 : i % 5 = 0 ∨ i % 5 = 1 ∨ i % 5 = 2 ∨ i % 5 = 3 ∨ i % 5 = 4 := by omega
    rcases h5 with h | h | h | h | h <;> simp only [room_label, h] <;> decide
  · rw [List.forall_iff_forall_mem]
    exact initialize_sensors_mem n r hr

/-- Witness for C5: a seven-sensor fleet from the concrete random source. -/
theorem C5_witness :
    (initialize_sensors 7 r0).length = 7 ∧
      (initialize_sensors 7 r0).map Sensor.location = (List.range 7).map room_label ∧
      (initialize_sensors 7 r0).map Sensor.type = (List.range 7).map r0.typeChoice ∧
      List.Forall (fun i => room_label (i + 5) = room_label i) (List.range 7) ∧
      List.Forall (fun i =>
        room_label i ∈ ["room_1", "room_2", "room_3", "room_4", "room_5"]) (List.range 7) ∧
      List.Forall (fun s => s.wf ∧ s.valid) (initialize_sensors 7 r0) :=
  C5_fleet_init 7 r0 r0_Ok

theorem digitChar_ne_underscore (n : ℕ) : Nat.digitChar n ≠ '_' := by
  rcases Nat.lt_or_ge n 16 with h | h
  · interval_cases n <;> decide
  · unfold Nat.digitChar
    rw [if_neg (by omega : ¬n = 0), if_neg (by omega : ¬n = 1), if_neg (by omega : ¬n = 2),
      if_neg (by omega : ¬n = 3), if_neg (by omega : ¬n = 4), if_neg (by omega : ¬n = 5),
      if_neg (by omega : ¬n = 6), if_neg (by omega : ¬n = 7), if_neg (by omega : ¬n = 8),
      if_neg (by omega : ¬n = 9), if_neg (by omega : ¬n = 10), if_neg (by omega : ¬n = 11),
      if_neg (by omega : ¬n = 12), if_neg (by omega : ¬n = 13), if_neg (by omega : ¬n = 14),
      if_neg (by omega : ¬n = 15)]
    decide

theorem toDigitsCore_ne_underscore : ∀ (fuel n : ℕ) (acc : List Char),
    (∀ c ∈ acc, c ≠ '_') → ∀ c ∈ Nat.toDigitsCore 10 fuel n acc, c ≠ '_' := by
  intro fuel
  induction fuel with
  | zero => intro n acc h; exact h
  | succ fuel ih =>
    intro n acc h c hc
    simp only [Nat.toDigitsCore] at hc
    by_cases h10 : n / 10 = 0
    · rw [if_pos h10] at hc
      rcases List.mem_cons.mp hc with rfl | hmem
      · exact digitChar_ne_underscore (n % 10)
      · exact h c hmem
    · rw [if_neg h10] at hc
      refine ih (n / 10) (Nat.digitChar (n % 10) :: acc) ?_ c hc
      intro d hd
      rcases List.mem_cons.mp hd with rfl | hmem
      · exact digitChar_ne_underscore (n % 10)
      · exact h d hmem

theorem repr_ne_underscore (n : ℕ) : ∀ c ∈ (Nat.repr n).data, c ≠ '_' := by
  intro c hc
  exact toDigitsCore_ne_underscore (n + 1) n [] (by intro d hd; cases hd) c hc

theorem toDigitsCore_shift : ∀ (fuel n : ℕ) (acc : List Char),
    Nat.toDigitsCore 10 fuel n acc = Nat.toDigitsCore 10 fuel n [] ++ acc := by
  intro fuel
  induction fuel with
  | zero => intro n acc; rfl
  | succ fuel ih =>
    intro n acc
    simp only [Nat.toDigitsCore]
    by_cases h10 : n / 10 = 0
    · rw [if_pos h10, if_pos h10]
      rfl
    · rw [if_neg h10, if_neg h10]
      rw [ih (n / 10) (Nat.digitChar (n % 10) :: acc),
        ih (n / 10) (Nat.digitChar (n % 10) :: [])]
      simp

/-- Decimal decoding of a digit string: the left inverse of `Nat.toDigits`. -/
def decodeDigits (l : List Char) : ℕ :=
  l.foldl (fun a c => 10 * a + (c.toNat - Char.toNat '0')) 0

theorem digitChar_decode (d : ℕ) (h : d < 10) :
    (Nat.digitChar d).toNat - Char.toNat '0' = d := by
  interval_cases d <;> decide

theorem decode_toDigitsCore : ∀ (fuel n : ℕ), n < fuel →
    decodeDigits (Nat.toDigitsCore 10 fuel n []) = n := by
  intro fuel
  induction fuel with
  | zero => intro n h; omega
  | succ fuel ih =>
    intro n h
    simp only [Nat.toDigitsCore]
    by_cases h10 : n / 10 = 0
    · rw [if_pos h10]
      have hlt : n % 10 < 10 := Nat.mod_lt n (by norm_num)
      simp only [decodeDigits, List.foldl_cons, List.foldl_nil]
      rw [digitChar_decode (n % 10) hlt]
      omega
    · rw [if_neg h10]
      rw [toDigitsCore_shift fuel (n / 10) (Nat.digitChar (n % 10) :: [])]
      have hfu : n / 10 < fuel := by omega
      have hd := ih (n / 10) hfu
      have hlt : n % 10 < 10 := Nat.mod_lt n (by omega)
      simp only [decodeDigits, List.foldl_append, List.foldl_cons, List.foldl_nil] at hd ⊢
      rw [hd, digitChar_decode (n % 10) hlt]
      omega

theorem repr_inj {m n : ℕ} (h : Nat.repr m = Nat.repr n) : m = n := by
  have hd : decodeDigits (Nat.repr m).data = decodeDigits (Nat.repr n).data := by rw [h]
  have h1 : decodeDigits (Nat.toDigitsCore 10 (m + 1) m []) = m :=
    decode_toDigitsCore (m + 1) m (Nat.lt_succ_self m)
  have h2 : decodeDigits (Nat.toDigitsCore 10 (n + 1) n []) = n :=
    decode_toDigitsCore (n + 1) n (Nat.lt_succ_self n)
  rw [show (Nat.repr m).data = Nat.toDigitsCore 10 (m + 1) m [] from rfl,
    show (Nat.repr n).data = Nat.toDigitsCore 10 (n + 1) n [] from rfl, h1, h2] at hd
  exact hd

theorem append_cons_inj {p : Char} : ∀ (as : List Char) (bs as' bs' : List Char),
    p ∉ as → p ∉ as' → as ++ p :: bs = as' ++ p :: bs' → as = as' ∧ bs = bs' := by
  intro as
  induction as with
  | nil =>
    intro bs as' bs' _ hp' heq
    cases as' with
    | nil => simpa using heq
    | cons a t =>
      simp only [List.nil_append, List.cons_append, List.cons.injEq] at heq
      exact absurd (by rw [heq.1]; exact List.mem_cons_self a t) hp'
  | cons a t ih =>
    intro bs as' bs' hp hp' heq
    cases as' with
    | nil =>
      simp only [List.nil_append, List.cons_append, List.cons.injEq] at heq
      exact absurd (by rw [← heq.1]; exact List.mem_cons_self a t) hp
    | cons a' t' =>
      simp only [List.cons_append, List.cons.injEq] at heq
      obtain ⟨h1, h2⟩ := heq
      have hp2 : p ∉ t := fun hm => hp (List.mem_cons_of_mem a hm)
      have hp2' : p ∉ t' := fun hm => hp' (List.mem_cons_of_mem a' hm)
      obtain ⟨e1, e2⟩ := ih bs t' bs' hp2 hp2' h2
      exact ⟨by rw [h1, e1], e2⟩

theorem string_data_append (a b : String) : (a ++ b).data = a.data ++ b.data := rfl

theorem string_ext {a b : String} (h : a.data = b.data) : a = b := by
  cases a
  cases b
  exact congrArg String.mk h

theorem typeName_no_underscore (t : SensorType) : ('_' : Char) ∉ (typeName t).data := by
  cases t <;> decide

theorem typeName_no_slash (t : SensorType) : ('/' : Char) ∉ (typeName t).data := by
  cases t <;> decide

theorem sensor_id_inj (t t' : SensorType) (i j : ℕ)
    (h : typeName t ++ "_" ++ Nat.repr (i + 1) = typeName t' ++ "_" ++ Nat.repr (j + 1)) :
    typeName t = typeName t' ∧ i = j := by
  have hd := congrArg String.data h
  rw [string_data_append, string_data_append, string_data_append, string_data_append] at hd
  have hrev := congrArg List.reverse hd
  simp only [List.reverse_append, List.reverse_cons, List.reverse_nil, List.nil_append,
    List.append_assoc, List.singleton_append] at hrev
  have hsplit := append_cons_inj (Nat.repr (i + 1)).data.reverse
    (typeName t).data.reverse (Nat.repr (j + 1)).data.reverse (typeName t').data.reverse
    (fun hm => repr_ne_underscore (i + 1) '_' (List.mem_reverse.mp hm) rfl)
    (fun hm => repr_ne_underscore (j + 1) '_' (List.mem_reverse.mp hm) rfl)
    hrev
  obtain ⟨e1, e2⟩ := hsplit
  refine ⟨string_ext (List.reverse_injective e2), ?_⟩
  have heq : Nat.repr (i + 1) = Nat.repr (j + 1) :=
    string_ext (List.reverse_injective e1)
  have := repr_inj heq
  omega

theorem slash_data : ("/" : String).data = ['/'] := rfl

theorem sensor_topic_inj (t t' : SensorType) (i j : ℕ)
    (h : "sensors/" ++ typeName t ++ "/" ++ (typeName t ++ "_" ++ Nat.repr (i + 1)) =
      "sensors/" ++ typeName t' ++ "/" ++ (typeName t' ++ "_" ++ Nat.repr (j + 1))) :
    i = j := by
  have hd := congrArg String.data h
  simp only [string_data_append, slash_data,
    show ("_" : String).data = ['_'] from rfl,
    List.append_assoc, List.singleton_append] at hd
  have hc := List.append_cancel_left hd
  obtain ⟨e1, e2⟩ := append_cons_inj (typeName t).data _ (typeName t').data _
    (typeName_no_slash t) (typeName_no_slash t') hc
  obtain ⟨f1, f2⟩ := append_cons_inj (typeName t).data _ (typeName t').data _
    (typeName_no_underscore t) (typeName_no_underscore t') e2
  have heq : Nat.repr (i + 1) = Nat.repr (j + 1) := string_ext f2
  have := repr_inj heq
  omega

theorem ids_map_eq (n : ℕ) (r : InitRand) :
    (initialize_sensors n r).map Sensor.id =
      (List.range n).map (fun i => typeName (r.typeChoice i) ++ "_" ++ Nat.repr (i + 1)) := by
  simp only [initialize_sensors, List.map_map]
  rfl

theorem ids_nodup (n : ℕ) (r : InitRand) : ((initialize_sensors n r).map Sensor.id).Nodup := by
  rw [ids_map_eq]
  refine List.Nodup.map_on ?_ (List.nodup_range n)
  intro i _ j _ hij
  exact (sensor_id_inj _ _ i j hij).2

theorem topics_map_eq (n : ℕ) (r : InitRand) (ts : String) :
    (publish_sensor_data (initialize_sensors n r) ts).map Message.topic =
      (List.range n).map (fun i => "sensors/" ++ typeName (r.typeChoice i) ++ "/" ++
        (typeName (r.typeChoice i) ++ "_" ++ Nat.repr (i + 1))) := by
  simp only [publish_sensor_data, initialize_sensors, List.map_map]
  rfl

theorem topics_nodup (n : ℕ) (r : InitRand) (ts : String) :
    ((publish_sensor_data (initialize_sensors n r) ts).map Message.topic).Nodup := by
  rw [topics_map_eq]
  refine List.Nodup.map_on ?_ (List.nodup_range n)
  intro i _ j _ hij
  exact sensor_topic_inj _ _ i j hij

/-- C10: in every fleet produced by initialization, the id of the sensor at
index `i` is its type name concatenated (through an underscore) with the
1-based index `i + 1`, all ids are pairwise distinct, and within one publish
cycle no two messages go to the same topic. -/
theorem C10_distinct_ids_topics (n : ℕ) (r : InitRand) (ts : String) :
    (initialize_sensors n r).map Sensor.id =
      (List.range n).map (fun i => typeName (r.typeChoice i) ++ "_" ++ Nat.repr (i + 1)) ∧
      ((initialize_sensors n r).map Sensor.id).Nodup ∧
      ((publish_sensor_data (initialize_sensors n r) ts).map Message.topic).Nodup :=
  ⟨ids_map_eq n r, ids_nodup n r, topics_nodup n r ts⟩

end IoTSim
